import Mathlib

/-!
Verification of the personal-training lifecycle coordinator of the flexcrm
gym-management application.

The development shallowly embeds:

* the JavaScript `Date` arithmetic used by `createAssignment` / `updateAssignment`
  to derive an assignment's `endDate` (`end.setMonth(end.getMonth() + duration);
  end.setDate(end.getDate() - 1)`),
* the invoice-number generator installed as `pre('save')` / `pre('validate')`
  hooks on the `Invoice` model, and
* the assignment controller operations (`getAssignments`, `createAssignment`,
  `updateAssignment`, `deleteAssignment`, `renewAssignment`,
  `getExpiringAssignments`) as state transformers over an explicit document
  store.

Dates are modelled at day granularity as "rata die" day counts (`rd`); JavaScript
`Date` values have millisecond resolution, but every property considered here is
insensitive to the time-of-day component, as noted at the relevant definitions.
-/

/-! ## Calendar arithmetic

Embedding of the proleptic Gregorian calendar used by JavaScript `Date`.
`rd y m d` is the number of days from an epoch to the civil date `(y, m, d)`
(`y ≥ 1`, `m ∈ [1,12]`, `d ≥ 1`); adding `k` to an `rd` value advances the date
by `k` days. -/

def isLeap (y : Nat) : Bool :=
  y % 4 == 0 && (y % 100 != 0 || y % 400 == 0)

def daysInMonth (y m : Nat) : Nat :=
  match m with
  | 2 => if isLeap y then 29 else 28
  | 4 => 30
  | 6 => 30
  | 9 => 30
  | 11 => 30
  | _ => 31

/-- Days in year `y` before the first day of month `m`. -/
def daysBeforeMonth (y m : Nat) : Nat :=
  let l : Nat := if isLeap y then 1 else 0
  match m with
  | 1 => 0
  | 2 => 31
  | 3 => 59 + l
  | 4 => 90 + l
  | 5 => 120 + l
  | 6 => 151 + l
  | 7 => 181 + l
  | 8 => 212 + l
  | 9 => 243 + l
  | 10 => 273 + l
  | 11 => 304 + l
  | _ => 334 + l

/-- Days before the first day of year `y` (years counted from 1). -/
def daysBeforeYear (y : Nat) : Nat :=
  365 * (y - 1) + (y - 1) / 4 + (y - 1) / 400 - (y - 1) / 100

/-- Rata-die day number of the civil date `(y, m, d)`. -/
def rd (y m d : Nat) : Nat :=
  daysBeforeYear y + daysBeforeMonth y m + d

/-- Year reached by `d.setMonth(d.getMonth() + duration)` starting from month `m`
of year `y` (JS months are 0-based; ours 1-based, normalisation is identical). -/
def targetYear (y m dur : Nat) : Nat :=
  y + ((m - 1) + dur) / 12

/-- Month reached by `d.setMonth(d.getMonth() + duration)` starting from month `m`. -/
def targetMonth (m dur : Nat) : Nat :=
  ((m - 1) + dur) % 12 + 1

/-- Rata-die value of the JS `Date` after `end.setMonth(end.getMonth() + duration)`
starting from `(y, m, d)`: the month is advanced with the day-of-month kept, and a
day-of-month exceeding the target month's length overflows into the following
month (JS `MakeDay` semantics: first day of the target month plus `d - 1` days). -/
def jsMonthAddRd (y m d dur : Nat) : Nat :=
  rd (targetYear y m dur) (targetMonth m dur) 1 + (d - 1)

/-- The `endDate` computed by `createAssignment` and `updateAssignment`
(src/unnamed/part_001 lines 347-351 and 432-435):
`end.setMonth(end.getMonth() + Number(duration)); end.setDate(end.getDate() - 1)`.
The final `setDate(getDate() - 1)` moves the (already normalised) date back by
exactly one day. -/
def codeEndRd (y m d dur : Nat) : Nat :=
  jsMonthAddRd y m d dur - 1

/-- Modelled from the spec: `endDate = startDate + duration months − 1 day`,
reading "plus duration calendar months" as conventional calendar-month addition
(as in `date-fns` `addMonths`, which this repository imports elsewhere): the
day-of-month is clamped to the length of the target month. -/
def specMonthAddEndRd (y m d dur : Nat) : Nat :=
  rd (targetYear y m dur) (targetMonth m dur)
    (min d (daysInMonth (targetYear y m dur) (targetMonth m dur))) - 1

/-- Claim C1 (counterexample): the claim "for every startDate and every duration
≥ 1 the operations compute endDate as startDate plus duration calendar months
minus one day" fails at startDate 2024-01-31 with duration 1: the code's JS
month-arithmetic overflows January 31 + 1 month to March 2 and yields
endDate 2024-03-01, while startDate + 1 calendar month − 1 day is 2024-02-28. -/
theorem end_date_month_overflow_counterexample :
    codeEndRd 2024 1 31 1 = rd 2024 3 1 ∧
    specMonthAddEndRd 2024 1 31 1 = rd 2024 2 28 ∧
    codeEndRd 2024 1 31 1 ≠ specMonthAddEndRd 2024 1 31 1 := by
  decide

/-- Claim C1 (amended): for every startDate `(y, m, d)` and duration ≥ 1 such
that the start day-of-month `d` does not exceed the length of the target month,
the end-date computation of `createAssignment` / `updateAssignment` equals
startDate plus duration calendar months minus one day. (When `d` exceeds the
target month's length the JS computation overflows into the following month
before subtracting the day, as in the counterexample.) -/
theorem end_date_formula_amended (y m d dur : Nat) (hdur : 1 ≤ dur) (hd : 1 ≤ d)
    (hclamp : d ≤ daysInMonth (targetYear y m dur) (targetMonth m dur)) :
    codeEndRd y m d dur = specMonthAddEndRd y m d dur := by
  unfold codeEndRd jsMonthAddRd specMonthAddEndRd rd
  omega

/-- Witness for `end_date_formula_amended`, at the spec's own example:
start 2024-01-15 with duration 3 yields end 2024-04-14. -/
theorem end_date_formula_amended_witness :
    1 ≤ 3 ∧ 1 ≤ 15 ∧ 15 ≤ daysInMonth (targetYear 2024 1 3) (targetMonth 1 3) ∧
    codeEndRd 2024 1 15 3 = specMonthAddEndRd 2024 1 15 3 ∧
    codeEndRd 2024 1 15 3 = rd 2024 4 14 :=
  ⟨by decide, by decide, by decide,
    end_date_formula_amended 2024 1 15 3 (by decide) (by decide) (by decide),
    by decide⟩

/-! ## Decimal digit strings

`String(n)` / `parseInt(s, 10)` on digit strings, modelled on `List Char`.
`natToDigitsAux` is fuel-indexed so that it is structurally recursive (any fuel
greater than `n` yields the decimal digits of `n`, most significant first). -/

def digitChar (k : Nat) : Char := Char.ofNat (48 + k)

def natToDigitsAux : Nat → Nat → List Char
  | 0, _ => []
  | fuel + 1, n =>
    if n < 10 then [digitChar n]
    else natToDigitsAux fuel (n / 10) ++ [digitChar (n % 10)]

/-- Decimal representation of `n`, most significant digit first (JS `String(n)`). -/
def natToDigits (n : Nat) : List Char := natToDigitsAux (n + 1) n

/-- `parseInt(s, 10)` on a digit string (JS `parseInt` of the captured `\d+`). -/
def parseDigits (cs : List Char) : Nat :=
  cs.foldl (fun a c => a * 10 + (c.toNat - 48)) 0

theorem digitChar_toNat (k : Nat) (h : k < 10) : (digitChar k).toNat = 48 + k := by
  interval_cases k <;> decide

theorem digitChar_isDigit (k : Nat) (h : k < 10) : (digitChar k).isDigit = true := by
  interval_cases k <;> decide

theorem natToDigitsAux_ne_nil (fuel n : Nat) (h : n < fuel) :
    natToDigitsAux fuel n ≠ [] := by
  cases fuel with
  | zero => omega
  | succ f =>
    unfold natToDigitsAux
    split
    · simp
    · simp

theorem natToDigitsAux_all_digits (fuel n : Nat) :
    ∀ c ∈ natToDigitsAux fuel n, c.isDigit = true := by
  induction fuel generalizing n with
  | zero => intro c hc; simp [natToDigitsAux] at hc
  | succ f ih =>
    intro c hc
    unfold natToDigitsAux at hc
    split at hc
    · next hlt =>
      rw [List.mem_singleton] at hc
      subst hc
      exact digitChar_isDigit n hlt
    · rcases List.mem_append.mp hc with h | h
      · exact ih _ c h
      · rw [List.mem_singleton] at h
        subst h
        exact digitChar_isDigit (n % 10) (by omega)

theorem parseDigits_append_digit (cs : List Char) (c : Char) :
    parseDigits (cs ++ [c]) = parseDigits cs * 10 + (c.toNat - 48) := by
  simp [parseDigits, List.foldl_append]

theorem parseDigits_natToDigitsAux (fuel n : Nat) (h : n < fuel) :
    parseDigits (natToDigitsAux fuel n) = n := by
  induction fuel generalizing n with
  | zero => omega
  | succ f ih =>
    unfold natToDigitsAux
    split
    · next hlt =>
      simp only [parseDigits, List.foldl_cons, List.foldl_nil, digitChar_toNat n hlt]
      omega
    · next hge =>
      rw [parseDigits_append_digit, ih (n / 10) (by omega),
        digitChar_toNat (n % 10) (by omega)]
      omega

theorem parseDigits_natToDigits (n : Nat) : parseDigits (natToDigits n) = n :=
  parseDigits_natToDigitsAux (n + 1) n (Nat.lt_succ_self n)

theorem natToDigits_ne_nil (n : Nat) : natToDigits n ≠ [] :=
  natToDigitsAux_ne_nil (n + 1) n (Nat.lt_succ_self n)

theorem natToDigits_all_digits (n : Nat) : ∀ c ∈ natToDigits n, c.isDigit = true :=
  natToDigitsAux_all_digits (n + 1) n

theorem parseDigits_replicate_zero_append (k : Nat) (ds : List Char) :
    parseDigits (List.replicate k '0' ++ ds) = parseDigits ds := by
  induction k with
  | zero => rfl
  | succ j ih => simpa [parseDigits, List.replicate_succ] using ih

/-! ## Invoice-number generator

Embedding of the `pre('save')` hook of `src/server/models/Invoice.js` (the
`pre('validate')` backup hook is textually identical): when the saved invoice has
no `invoiceNumber`, fetch the invoice with the greatest `createdAt` across the
whole collection (no gym filter), extract the digits of the first `INV(\d+)`
match in its number, increment (falling back to 1 when there is no previous
invoice, its number is empty, or the pattern does not match), and zero-pad to
five digits. -/

/-- Maximal run of leading decimal digits (the `\d+` capture). -/
def leadingDigits (cs : List Char) : List Char :=
  cs.takeWhile (fun c => c.isDigit)

/-- Left-to-right scan of `/INV(\d+)/`: at each position, if the text `INV`
followed by at least one digit starts here, capture the digit run, else move one
character right. -/
def findINVMatch : List Char → Option (List Char)
  | 'I' :: 'N' :: 'V' :: rest =>
    let ds := leadingDigits rest
    if ds.isEmpty then findINVMatch ('N' :: 'V' :: rest) else some ds
  | _ :: rest => findINVMatch rest
  | [] => none

/-- `String(nextNumber).padStart(5, '0')` (never truncates). -/
def padStart5 (cs : List Char) : List Char :=
  if 5 ≤ cs.length then cs else List.replicate (5 - cs.length) '0' ++ cs

/-- The `nextNumber` computed by the hook from the most recent invoice's number
(`none` when the collection is empty; an invoice with an empty `invoiceNumber`
is falsy in the `lastInvoice && lastInvoice.invoiceNumber` test). -/
def nextNumberOf (last : Option (List Char)) : Nat :=
  match last with
  | none => 1
  | some s =>
    if s.isEmpty then 1
    else
      match findINVMatch s with
      | some ds => parseDigits ds + 1
      | none => 1

/-- The invoice number assigned by the hook. -/
def genInvoiceNumber (last : Option (List Char)) : List Char :=
  'I' :: 'N' :: 'V' :: padStart5 (natToDigits (nextNumberOf last))

/-- The `k`-th generated invoice number, `INV` + zero-padded decimal `k`. -/
def mkInvNumber (k : Nat) : List Char :=
  'I' :: 'N' :: 'V' :: padStart5 (natToDigits k)

/-- A stored invoice, as far as the numbering hook is concerned: its tenant and
its assigned number. The hook's `findOne({}, {}, { sort: { createdAt: -1 } })`
ignores the tenant. -/
structure InvoiceRec where
  gymId : Nat
  invoiceNumber : List Char
deriving DecidableEq, Repr

/-- Saving one invoice without a number: the hook assigns
`genInvoiceNumber` of the most recently created invoice (list order is creation
order, so the most recent is the last element), regardless of `gymId`. -/
def saveInvoice (db : List InvoiceRec) (gym : Nat) : List InvoiceRec :=
  db ++ [⟨gym, genInvoiceNumber ((db.getLast?).map InvoiceRec.invoiceNumber)⟩]

/-- `n` sequential (non-concurrent) invoice creations starting from an empty
collection; `gymOf i` is the tenant of the `i`-th created invoice. -/
def runCreates (gymOf : Nat → Nat) : Nat → List InvoiceRec
  | 0 => []
  | n + 1 => saveInvoice (runCreates gymOf n) (gymOf n)

theorem takeWhile_eq_self_of_all {p : Char → Bool} :
    ∀ l : List Char, (∀ c ∈ l, p c = true) → l.takeWhile p = l := by
  intro l h
  induction l with
  | nil => rfl
  | cons c cs ih =>
    rw [List.takeWhile_cons, h c (List.mem_cons_self c cs)]
    simp [ih fun x hx => h x (List.mem_cons_of_mem c hx)]

theorem padStart5_all_digits (cs : List Char) (h : ∀ c ∈ cs, c.isDigit = true) :
    ∀ c ∈ padStart5 cs, c.isDigit = true := by
  intro c hc
  unfold padStart5 at hc
  split at hc
  · exact h c hc
  · rcases List.mem_append.mp hc with hm | hm
    · rw [List.eq_of_mem_replicate hm]; rfl
    · exact h c hm

theorem padStart5_ne_nil (cs : List Char) : padStart5 cs ≠ [] := by
  unfold padStart5
  split
  · next hlen =>
    intro h
    rw [h] at hlen
    simp at hlen
  · next hlen =>
    simp only [not_le] at hlen
    intro h
    have := congrArg List.length h
    simp at this
    omega

theorem leadingDigits_padStart5_natToDigits (n : Nat) :
    leadingDigits (padStart5 (natToDigits n)) = padStart5 (natToDigits n) :=
  takeWhile_eq_self_of_all _ (padStart5_all_digits _ (natToDigits_all_digits n))

theorem parseDigits_padStart5_natToDigits (n : Nat) :
    parseDigits (padStart5 (natToDigits n)) = n := by
  unfold padStart5
  split
  · exact parseDigits_natToDigits n
  · rw [parseDigits_replicate_zero_append, parseDigits_natToDigits]

theorem findINVMatch_gen (rest : List Char) (h : leadingDigits rest ≠ []) :
    findINVMatch ('I' :: 'N' :: 'V' :: rest) = some (leadingDigits rest) := by
  rw [findINVMatch]
  simp only [List.isEmpty_iff]
  rw [if_neg h]

theorem nextNumberOf_some (s ds : List Char) (hne : s.isEmpty = false)
    (hm : findINVMatch s = some ds) :
    nextNumberOf (some s) = parseDigits ds + 1 := by
  have h1 : nextNumberOf (some s) =
      if s.isEmpty = true then 1
      else
        match findINVMatch s with
        | some ds => parseDigits ds + 1
        | none => 1 := rfl
  rw [h1, hne, hm]
  simp

/-- Parsing a generated invoice number and incrementing yields the next number. -/
theorem nextNumberOf_mkInvNumber (n : Nat) :
    nextNumberOf (some (mkInvNumber n)) = n + 1 := by
  have hm : findINVMatch (mkInvNumber n) = some (padStart5 (natToDigits n)) := by
    rw [mkInvNumber,
      findINVMatch_gen _ (by rw [leadingDigits_padStart5_natToDigits]; exact padStart5_ne_nil _),
      leadingDigits_padStart5_natToDigits]
  rw [nextNumberOf_some (mkInvNumber n) (padStart5 (natToDigits n)) (by rw [mkInvNumber]; rfl) hm,
    parseDigits_padStart5_natToDigits]

theorem getLast?_map_list {α β : Type} (f : α → β) :
    ∀ l : List α, (l.map f).getLast? = (l.getLast?).map f := by
  intro l
  induction l with
  | nil => rfl
  | cons x xs ih =>
    cases xs with
    | nil => rfl
    | cons y ys =>
      rw [List.map_cons, List.map_cons, List.getLast?_cons_cons, List.getLast?_cons_cons,
        ← List.map_cons]
      exact ih

theorem getLast?_range_map {β : Type} (g : Nat → β) (n : Nat) :
    ((List.range n).map g).getLast? = if n = 0 then none else some (g (n - 1)) := by
  cases n with
  | zero => rfl
  | succ m =>
    rw [List.range_succ, List.map_append]
    simp

/-- Claim C2: under sequential non-concurrent creation starting from an empty
collection, the invoice-number hook assigns `INV00001`, `INV00002`, … — the
`i`-th created invoice (counting from 0) gets number `INV` + zero-padded
decimal `i + 1`, whatever tenant (`gymOf i`) each invoice belongs to, because
the generator reads the most recent invoice globally. Strict increase of the
integer suffixes is immediate: the `i`-th suffix is `i + 1`. -/
theorem invoice_numbers_sequential (gymOf : Nat → Nat) (n : Nat) :
    (runCreates gymOf n).map InvoiceRec.invoiceNumber =
      (List.range n).map (fun i => mkInvNumber (i + 1)) := by
  induction n with
  | zero => rfl
  | succ m ih =>
    rw [runCreates]
    unfold saveInvoice
    rw [List.map_append, ih, List.range_succ, List.map_append]
    congr 1
    have hlast : Option.map InvoiceRec.invoiceNumber (runCreates gymOf m).getLast? =
        if m = 0 then none else some (mkInvNumber m) := by
      rw [← getLast?_map_list, ih, getLast?_range_map]
      cases m with
      | zero => rfl
      | succ k => simp
    rw [List.map_singleton, List.map_singleton, hlast]
    cases m with
    | zero => rfl
    | succ k =>
      rw [if_neg (Nat.succ_ne_zero k)]
      show [genInvoiceNumber (some (mkInvNumber (k + 1)))] = [mkInvNumber (k + 1 + 1)]
      unfold genInvoiceNumber
      rw [nextNumberOf_mkInvNumber, mkInvNumber]


/-! ## The Lifecycle Side-Effect Coordinator

State-passing embedding of the personal-training assignment controller
(src/unnamed/part_001 lines 320-637). The document store is an explicit `DB`
value; every Mongoose call becomes a pure transformation of it.

Modelling conventions, each matching the sequential behaviour of the source:
* `invoices` and `transactions` are kept newest-first: inserting a document
  conses it, and `findOne(...).sort({ createdAt: -1 })` is `find?` (first match);
  `deleteMany` is `filter` by the negated predicate.
* Mongo `_id` values are allocated from the `nextId` counter, so ids of newly
  inserted documents are fresh per run.
* Dates are rata-die day numbers (`rd`); `new Date()` ("now") is `todayRd`.
  `dueDate = now + 7 days` is `todayRd + 7`.
* JavaScript falsiness of required body fields (`if (!customerId || ...)`)
  is `= 0` for numeric ids/amounts/durations; the date strings are taken as
  present and well-formed.
* `findByIdAndUpdate` / `findByIdAndDelete` on a missing id are no-ops
  returning null, exactly as in Mongoose.
* Invoice numbering (a storage-layer hook, verified separately above) and the
  `currency: 'INR'` constant are not repeated on coordinator invoices; no claim
  about the coordinator mentions them.
-/

inductive TxType where
  | PERSONAL_TRAINING
  | PERSONAL_TRAINING_RENEWAL
  | MEMBERSHIP_JOINING
deriving DecidableEq, Repr

structure Item where
  description : List Char
  quantity : Nat
  unitPrice : Int
  amount : Int
deriving DecidableEq, Repr

structure InvoiceDoc where
  invId : Nat
  userId : Nat
  gymId : Nat
  customerId : Nat
  amount : Int
  dueDate : Nat
  items : List Item
  notes : List Char
deriving DecidableEq, Repr

structure TransactionDoc where
  txId : Nat
  userId : Nat
  gymId : Nat
  invoiceId : Nat
  transactionType : TxType
  transactionDate : Nat
  amount : Int
  paymentMode : List Char
  membershipType : Option (List Char)
  description : List Char
  status : List Char
deriving DecidableEq, Repr

structure Assignment where
  aid : Nat
  customerId : Nat
  trainerId : Nat
  gymId : Nat
  startDate : Nat
  duration : Nat
  endDate : Nat
  fees : Int
deriving DecidableEq, Repr

structure Customer where
  cid : Nat
  totalSpent : Int
  personalTrainer : Option Assignment
deriving DecidableEq, Repr

structure DB where
  customers : List Customer
  assignments : List Assignment
  invoices : List InvoiceDoc
  transactions : List TransactionDoc
  nextId : Nat
  todayRd : Nat
deriving DecidableEq, Repr

/-- A civil date argument `(y, m, d)` as supplied in a request body. -/
structure DateArg where
  y : Nat
  m : Nat
  d : Nat
deriving DecidableEq, Repr

inductive ApiErr where
  | badRequest : List Char → ApiErr
  | notFound : List Char → ApiErr
deriving DecidableEq, Repr

/-- `Customer.findByIdAndUpdate(cid, f)`: rewrite the (unique-keyed, hence
first) document whose `_id` matches; no-op when absent. -/
def updateCustomerById (l : List Customer) (cid : Nat) (f : Customer → Customer) :
    List Customer :=
  match l with
  | [] => []
  | c :: rest => if c.cid == cid then f c :: rest else c :: updateCustomerById rest cid f

/-- `Customer.findById(cid)`. -/
def findCustomer (l : List Customer) (cid : Nat) : Option Customer :=
  l.find? (fun c => c.cid == cid)

/-- Rewrite the first element satisfying `p` (Mongoose `findOne` + mutate +
`save`, or `findByIdAndUpdate`); no-op when none matches. -/
def replaceFirst {α : Type} (p : α → Bool) (f : α → α) : List α → List α
  | [] => []
  | x :: xs => if p x then f x :: xs else x :: replaceFirst p f xs

/-- Index of the first element satisfying `p`. -/
def findIdxP {α : Type} (p : α → Bool) : List α → Option Nat
  | [] => none
  | x :: xs => if p x then some 0 else (findIdxP p xs).map (· + 1)

/-- Substring test `pat` occurs in `s` (the JS regex `/Personal Training/`
test against a field is a plain substring search). -/
def containsSub (pat : List Char) : List Char → Bool
  | [] => pat.isEmpty
  | c :: rest => pat.isPrefixOf (c :: rest) || containsSub pat rest

/-- The literal of the regex `/Personal Training/`. -/
def ptPat : List Char := "Personal Training".data

/-- Mongo filter `{ customerId, gymId, 'items.description': /Personal Training/ }`:
the array field matches when some item's description matches. -/
def invMatchesPT (cid gid : Nat) (inv : InvoiceDoc) : Bool :=
  inv.customerId == cid && inv.gymId == gid &&
    inv.items.any (fun it => containsSub ptPat it.description)

/-- Mongo filter `{ userId: customerId, gymId, transactionType: 'PERSONAL_TRAINING' }`
used by `updateAssignment`. -/
def txMatchesPT (cid gid : Nat) (t : TransactionDoc) : Bool :=
  t.userId == cid && t.gymId == gid && t.transactionType == TxType.PERSONAL_TRAINING

/-- Mongo filter `{ userId: customerId, gymId,
transactionType: { $in: ['PERSONAL_TRAINING', 'PERSONAL_TRAINING_RENEWAL'] } }`
used by `deleteAssignment`. -/
def txMatchesPTorRenewal (cid gid : Nat) (t : TransactionDoc) : Bool :=
  t.userId == cid && t.gymId == gid &&
    (t.transactionType == TxType.PERSONAL_TRAINING ||
      t.transactionType == TxType.PERSONAL_TRAINING_RENEWAL)

/-- Invoice line item of `createAssignment`/`updateAssignment`:
`Personal Training with ${duration} month(s) duration`. -/
def mkCreateDesc (duration : Nat) : List Char :=
  "Personal Training with ".data ++ natToDigits duration ++ " month(s) duration".data

/-- Invoice line item of `renewAssignment`:
`Personal Training Renewal (${duration} month(s))`. -/
def mkRenewDesc (duration : Nat) : List Char :=
  "Personal Training Renewal (".data ++ natToDigits duration ++ " month(s))".data

/-- Invoice notes `Personal training assignment starting ${start.toLocaleDateString()}`
(the locale rendering of the date is abstracted to its day number). -/
def mkCreateNotes (startRd : Nat) : List Char :=
  "Personal training assignment starting ".data ++ natToDigits startRd

/-- Invoice notes of a renewal. -/
def mkRenewNotes (startRd : Nat) : List Char :=
  "Personal training renewal starting ".data ++ natToDigits startRd

/-- Transaction description `Personal training fees for ${duration} month(s)`. -/
def mkTxDesc (duration : Nat) : List Char :=
  "Personal training fees for ".data ++ natToDigits duration ++ " month(s)".data

/-- Transaction description `Personal training renewal for ${duration} month(s)`. -/
def mkRenewTxDesc (duration : Nat) : List Char :=
  "Personal training renewal for ".data ++ natToDigits duration ++ " month(s)".data

/-- Request body of `createAssignment` and `updateAssignment`. -/
structure CreateArgs where
  customerId : Nat
  trainerId : Nat
  gymId : Nat
  startDate : DateArg
  duration : Nat
  fees : Int
deriving DecidableEq, Repr

/-- Request body of `renewAssignment` (`endDate` is caller supplied, already a
day number; `paymentMode` and `transactionDate` are optional). -/
structure RenewArgs where
  startDate : DateArg
  duration : Nat
  endDate : Nat
  fees : Int
  gymId : Nat
  paymentMode : Option (List Char)
  transactionDate : Option Nat
deriving DecidableEq, Repr

/-- GET `/` — `getAssignments` (src/unnamed/part_001 lines 327-337): filter by
the `gymId` *query parameter* when present, otherwise return every assignment.
`userGymId` is the authenticated caller's gym (`req.user`), which the handler
never consults. -/
def getAssignments (db : DB) (queryGymId : Option Nat) (userGymId : Nat) :
    List Assignment :=
  match queryGymId with
  | some g => db.assignments.filter (fun a => a.gymId == g)
  | none => db.assignments

/-- POST `/` — `createAssignment` (src/unnamed/part_001 lines 340-420). -/
def createAssignment (db : DB) (userId : Nat) (a : CreateArgs) :
    DB × Except ApiErr Assignment :=
  if a.customerId = 0 ∨ a.trainerId = 0 ∨ a.gymId = 0 ∨ a.duration = 0 ∨ a.fees = 0 then
    (db, Except.error (ApiErr.badRequest "All fields are required.".data))
  else
    let startRd := rd a.startDate.y a.startDate.m a.startDate.d
    let endRd := codeEndRd a.startDate.y a.startDate.m a.startDate.d a.duration
    let asg : Assignment :=
      { aid := db.nextId, customerId := a.customerId, trainerId := a.trainerId,
        gymId := a.gymId, startDate := startRd, duration := a.duration,
        endDate := endRd, fees := a.fees }
    let db1 := { db with assignments := asg :: db.assignments, nextId := db.nextId + 1 }
    let db2 :=
      { db1 with
        customers := updateCustomerById db1.customers a.customerId
          (fun c => { c with personalTrainer := some asg }) }
    let inv : InvoiceDoc :=
      { invId := db2.nextId, userId := userId, gymId := a.gymId,
        customerId := a.customerId, amount := a.fees, dueDate := db.todayRd + 7,
        items := [{ description := mkCreateDesc a.duration, quantity := 1,
                    unitPrice := a.fees, amount := a.fees }],
        notes := mkCreateNotes startRd }
    let db3 := { db2 with invoices := inv :: db2.invoices, nextId := db2.nextId + 1 }
    let txn : TransactionDoc :=
      { txId := db3.nextId, userId := a.customerId, gymId := a.gymId,
        invoiceId := inv.invId, transactionType := TxType.PERSONAL_TRAINING,
        transactionDate := db.todayRd, amount := a.fees,
        paymentMode := "cash".data, membershipType := none,
        description := mkTxDesc a.duration, status := "SUCCESS".data }
    let db4 := { db3 with transactions := txn :: db3.transactions, nextId := db3.nextId + 1 }
    let db5 :=
      { db4 with
        customers := updateCustomerById db4.customers a.customerId
          (fun c => { c with totalSpent := c.totalSpent + a.fees }) }
    (db5, Except.ok asg)

/-- PUT `/:id` — `updateAssignment` (src/unnamed/part_001 lines 423-497). -/
def updateAssignment (db : DB) (id : Nat) (a : CreateArgs) :
    DB × Except ApiErr Assignment :=
  if a.customerId = 0 ∨ a.trainerId = 0 ∨ a.gymId = 0 ∨ a.duration = 0 ∨ a.fees = 0 then
    (db, Except.error (ApiErr.badRequest "All fields are required.".data))
  else
    let startRd := rd a.startDate.y a.startDate.m a.startDate.d
    let endRd := codeEndRd a.startDate.y a.startDate.m a.startDate.d a.duration
    match db.assignments.find? (fun x => x.aid == id) with
    | none => (db, Except.error (ApiErr.notFound "Assignment not found.".data))
    | some old =>
      let asg : Assignment :=
        { old with
          customerId := a.customerId, trainerId := a.trainerId, gymId := a.gymId,
          startDate := startRd, duration := a.duration, endDate := endRd, fees := a.fees }
      let db1 :=
        { db with
          assignments := replaceFirst (fun x => x.aid == id) (fun _ => asg) db.assignments }
      let db2 :=
        { db1 with
          customers := updateCustomerById db1.customers a.customerId
            (fun c => { c with personalTrainer := some asg }) }
      let db3 :=
        match db2.invoices.find? (invMatchesPT a.customerId a.gymId) with
        | none => db2
        | some _ =>
          { db2 with
            invoices := replaceFirst (invMatchesPT a.customerId a.gymId)
              (fun inv =>
                { inv with
                  amount := a.fees, dueDate := endRd,
                  items := [{ description := mkCreateDesc a.duration, quantity := 1,
                              unitPrice := a.fees, amount := a.fees }],
                  notes := mkCreateNotes startRd }) db2.invoices }
      let db4 :=
        match db3.transactions.find? (txMatchesPT a.customerId a.gymId) with
        | none => db3
        | some _ =>
          { db3 with
            transactions := replaceFirst (txMatchesPT a.customerId a.gymId)
              (fun t =>
                { t with
                  amount := a.fees, description := mkTxDesc a.duration,
                  transactionDate := db.todayRd }) db3.transactions }
      (db4, Except.ok asg)

/-- DELETE `/:id` — `deleteAssignment` (src/unnamed/part_001 lines 500-535). -/
def deleteAssignment (db : DB) (id : Nat) : DB × Except ApiErr Unit :=
  match db.assignments.find? (fun x => x.aid == id) with
  | none => (db, Except.error (ApiErr.notFound "Assignment not found.".data))
  | some asg =>
    let db1 :=
      { db with
        customers := updateCustomerById db.customers asg.customerId
          (fun c => { c with personalTrainer := none }) }
    let db2 :=
      { db1 with
        invoices := db1.invoices.filter
          (fun i => !(invMatchesPT asg.customerId asg.gymId i)) }
    let db3 :=
      { db2 with
        transactions := db2.transactions.filter
          (fun t => !(txMatchesPTorRenewal asg.customerId asg.gymId t)) }
    let db4 := { db3 with assignments := db3.assignments.eraseP (fun x => x.aid == id) }
    (db4, Except.ok ())

/-- POST `/:id/renew` — `renewAssignment` (src/unnamed/part_001 lines 538-615). -/
def renewAssignment (db : DB) (userId : Nat) (id : Nat) (a : RenewArgs) :
    DB × Except ApiErr Assignment :=
  if a.duration = 0 ∨ a.endDate = 0 ∨ a.fees = 0 ∨ a.gymId = 0 then
    (db, Except.error (ApiErr.badRequest "All fields are required.".data))
  else
    match db.assignments.find? (fun x => x.aid == id) with
    | none => (db, Except.error (ApiErr.notFound "Assignment not found.".data))
    | some old =>
      let startRd := rd a.startDate.y a.startDate.m a.startDate.d
      let asg : Assignment :=
        { old with
          startDate := startRd, duration := a.duration,
          endDate := a.endDate, fees := a.fees }
      let db1 :=
        { db with
          assignments := replaceFirst (fun x => x.aid == id) (fun _ => asg) db.assignments }
      let db2 :=
        { db1 with
          customers := updateCustomerById db1.customers asg.customerId
            (fun c => { c with personalTrainer := some asg }) }
      let inv : InvoiceDoc :=
        { invId := db2.nextId, userId := userId, gymId := a.gymId,
          customerId := asg.customerId, amount := a.fees, dueDate := a.endDate,
          items := [{ description := mkRenewDesc a.duration, quantity := a.duration,
                      unitPrice := a.fees / (a.duration : Int), amount := a.fees }],
          notes := mkRenewNotes startRd }
      let db3 := { db2 with invoices := inv :: db2.invoices, nextId := db2.nextId + 1 }
      let txn : TransactionDoc :=
        { txId := db3.nextId, userId := asg.customerId, gymId := a.gymId,
          invoiceId := inv.invId, transactionType := TxType.PERSONAL_TRAINING_RENEWAL,
          transactionDate := a.transactionDate.getD db.todayRd, amount := a.fees,
          paymentMode := a.paymentMode.getD "cash".data, membershipType := some "none".data,
          description := mkRenewTxDesc a.duration, status := "SUCCESS".data }
      let db4 := { db3 with transactions := txn :: db3.transactions, nextId := db3.nextId + 1 }
      let db5 :=
        { db4 with
          customers := updateCustomerById db4.customers asg.customerId
            (fun c => { c with totalSpent := c.totalSpent + a.fees }) }
      (db5, Except.ok asg)

/-- GET `/expiring` — `getExpiringAssignments` (src/unnamed/part_001 lines
618-637): assignments whose `endDate` lies in `[today 00:00:00, today+7
23:59:59.999]`; at day granularity, with JS `Date` millisecond resolution, that
window contains exactly the end dates whose day number is in
`[todayRd, todayRd + 7]`. Filtered by the `gymId` query parameter only when
present; `userGymId` (`req.user`'s gym) is never consulted. -/
def getExpiringAssignments (db : DB) (queryGymId : Option Nat) (userGymId : Nat) :
    List Assignment :=
  db.assignments.filter (fun a =>
    (decide (db.todayRd ≤ a.endDate) && decide (a.endDate ≤ db.todayRd + 7)) &&
      (match queryGymId with
       | some g => a.gymId == g
       | none => true))

/-! ## Helper lemmas about the store primitives -/

theorem findCustomer_updateCustomerById (l : List Customer) (cid : Nat)
    (f : Customer → Customer) (hf : ∀ c, (f c).cid = c.cid) :
    findCustomer (updateCustomerById l cid f) cid = (findCustomer l cid).map f := by
  induction l with
  | nil => rfl
  | cons c rest ih =>
    rw [updateCustomerById]
    by_cases h : c.cid = cid
    · rw [if_pos (by simp [h]), findCustomer, findCustomer,
        List.find?_cons_of_pos _ (by simp [hf c, h]),
        List.find?_cons_of_pos _ (by simp [h])]
      rfl
    · rw [if_neg (by simp [h]), findCustomer, findCustomer,
        List.find?_cons_of_neg _ (by simp [h]),
        List.find?_cons_of_neg _ (by simp [h])]
      exact ih

theorem replaceFirst_length {α : Type} (p : α → Bool) (f : α → α) :
    ∀ l : List α, (replaceFirst p f l).length = l.length := by
  intro l
  induction l with
  | nil => rfl
  | cons x xs ih =>
    rw [replaceFirst]
    split
    · rfl
    · simpa using ih

theorem replaceFirst_of_find?_none {α : Type} (p : α → Bool) (f : α → α)
    (l : List α) (h : l.find? p = none) : replaceFirst p f l = l := by
  induction l with
  | nil => rfl
  | cons x xs ih =>
    cases hp : p x with
    | true =>
      rw [List.find?_cons_of_pos _ hp] at h
      exact absurd h (by simp)
    | false =>
      rw [List.find?_cons_of_neg _ (by simp [hp])] at h
      rw [replaceFirst, if_neg (by simp [hp]), ih h]

theorem replaceFirst_getElem?_ne {α : Type} (p : α → Bool) (f : α → α) :
    ∀ (l : List α) (k j : Nat), findIdxP p l = some k → j ≠ k →
      (replaceFirst p f l)[j]? = l[j]? := by
  intro l
  induction l with
  | nil => intro k j hk; simp [findIdxP] at hk
  | cons x xs ih =>
    intro k j hk hne
    rw [findIdxP] at hk
    rw [replaceFirst]
    split
    · next hp =>
      rw [if_pos hp] at hk
      have hk0 : k = 0 := by simpa using hk.symm
      subst hk0
      cases j with
      | zero => omega
      | succ j' => simp
    · next hp =>
      rw [if_neg hp] at hk
      rcases Option.map_eq_some'.mp hk with ⟨k', hk', rfl⟩
      cases j with
      | zero => simp
      | succ j' =>
        simp only [List.getElem?_cons_succ]
        exact ih k' j' hk' (by omega)

theorem replaceFirst_getElem?_eq {α : Type} (p : α → Bool) (f : α → α) :
    ∀ (l : List α) (k : Nat), findIdxP p l = some k →
      (replaceFirst p f l)[k]? = (l[k]?).map f := by
  intro l
  induction l with
  | nil => intro k hk; simp [findIdxP] at hk
  | cons x xs ih =>
    intro k hk
    rw [findIdxP] at hk
    rw [replaceFirst]
    split
    · next hp =>
      rw [if_pos hp] at hk
      have hk0 : k = 0 := by simpa using hk.symm
      subst hk0
      simp
    · next hp =>
      rw [if_neg hp] at hk
      rcases Option.map_eq_some'.mp hk with ⟨k', hk', rfl⟩
      simp only [List.getElem?_cons_succ]
      exact ih k' hk'

/-! ## Claims about the coordinator operations -/

/-- Claim C3: for every customer present in the store, a successfully completed
`createAssignment` (all required body fields non-falsy) increases that
customer's `totalSpent` by exactly the `fees` argument, and a subsequently
successfully completed `renewAssignment` of the created assignment increases it
again by the renewal `fees`: the increments accumulate, neither operation
replaces the previous total. -/
theorem totalSpent_accumulates_create_renew
    (db : DB) (userId1 userId2 : Nat) (a : CreateArgs) (r : RenewArgs) (c : Customer)
    (h1 : a.customerId ≠ 0) (h2 : a.trainerId ≠ 0) (h3 : a.gymId ≠ 0)
    (h4 : a.duration ≠ 0) (h5 : a.fees ≠ 0)
    (h6 : r.duration ≠ 0) (h7 : r.endDate ≠ 0) (h8 : r.fees ≠ 0) (h9 : r.gymId ≠ 0)
    (hcust : findCustomer db.customers a.customerId = some c) :
    (findCustomer (createAssignment db userId1 a).1.customers a.customerId).map
        Customer.totalSpent = some (c.totalSpent + a.fees) ∧
    (findCustomer (renewAssignment (createAssignment db userId1 a).1 userId2 db.nextId
        r).1.customers a.customerId).map Customer.totalSpent =
      some (c.totalSpent + a.fees + r.fees) := by
  have hval : ¬(a.customerId = 0 ∨ a.trainerId = 0 ∨ a.gymId = 0 ∨ a.duration = 0 ∨
      a.fees = 0) := by
    simp [h1, h2, h3, h4, h5]
  have hval2 : ¬(r.duration = 0 ∨ r.endDate = 0 ∨ r.fees = 0 ∨ r.gymId = 0) := by
    simp [h6, h7, h8, h9]
  constructor
  · simp only [createAssignment, if_neg hval]
    rw [findCustomer_updateCustomerById, findCustomer_updateCustomerById, hcust]
    · rfl
    · intro x; rfl
    · intro x; rfl
  · simp only [createAssignment, if_neg hval, renewAssignment, if_neg hval2]
    rw [List.find?_cons_of_pos _ (by simp)]
    rw [findCustomer_updateCustomerById, findCustomer_updateCustomerById,
      findCustomer_updateCustomerById, findCustomer_updateCustomerById, hcust]
    · rfl
    · intro x; rfl
    · intro x; rfl
    · intro x; rfl
    · intro x; rfl

/-- Concrete store for the witnesses: one customer (id 1, nothing spent yet),
no assignments, invoices or transactions; clock at day 738890 (early 2024). -/
def wDB : DB :=
  { customers := [{ cid := 1, totalSpent := 0, personalTrainer := none }],
    assignments := [], invoices := [], transactions := [], nextId := 10,
    todayRd := 738890 }

def wCreate : CreateArgs :=
  { customerId := 1, trainerId := 2, gymId := 3,
    startDate := { y := 2024, m := 1, d := 10 }, duration := 1, fees := 100 }

def wRenew : RenewArgs :=
  { startDate := { y := 2024, m := 3, d := 1 }, duration := 1, endDate := 739000,
    fees := 150, gymId := 3, paymentMode := none, transactionDate := none }

/-- Witness for `totalSpent_accumulates_create_renew`: creating (fees 100) and
then renewing (fees 150) customer 1's assignment leaves totalSpent 0+100, then
0+100+150. -/
theorem totalSpent_accumulates_create_renew_witness :
    (findCustomer (createAssignment wDB 5 wCreate).1.customers wCreate.customerId).map
        Customer.totalSpent = some ((0 : Int) + 100) ∧
    (findCustomer (renewAssignment (createAssignment wDB 5 wCreate).1 7 wDB.nextId
        wRenew).1.customers wCreate.customerId).map Customer.totalSpent =
      some ((0 : Int) + 100 + 150) :=
  totalSpent_accumulates_create_renew wDB 5 7 wCreate wRenew
    { cid := 1, totalSpent := 0, personalTrainer := none }
    (by decide) (by decide) (by decide) (by decide) (by decide)
    (by decide) (by decide) (by decide) (by decide) (by decide)

theorem findIdxP_eq_none_of_find?_none {α : Type} (p : α → Bool) :
    ∀ l : List α, l.find? p = none → findIdxP p l = none := by
  intro l
  induction l with
  | nil => intro; rfl
  | cons x xs ih =>
    intro h
    cases hp : p x with
    | true =>
      rw [List.find?_cons_of_pos _ hp] at h
      exact absurd h (by simp)
    | false =>
      rw [List.find?_cons_of_neg _ (by simp [hp])] at h
      rw [findIdxP, if_neg (by simp [hp]), ih h]
      rfl

/-- Claim C9: for an id with no corresponding assignment, `deleteAssignment`
returns the 404 "Assignment not found." error and performs no writes at all —
the result store is the argument store, so customers, invoices and transactions
are untouched (the existence check precedes every side effect). -/
theorem delete_missing_id_no_writes (db : DB) (id : Nat)
    (h : db.assignments.find? (fun x => x.aid == id) = none) :
    deleteAssignment db id =
      (db, Except.error (ApiErr.notFound "Assignment not found.".data)) := by
  simp only [deleteAssignment, h]

/-- Claim C6: for an existing assignment id, `deleteAssignment` succeeds and
(1) unconditionally clears the customer's `personalTrainer` reference — the
result is `none` whatever it referenced before, in particular when it pointed
at a different assignment; (2) bulk-deletes every invoice matching customer +
gym + the `/Personal Training/` item-description pattern and every transaction
matching customer + gym + type `PERSONAL_TRAINING`/`PERSONAL_TRAINING_RENEWAL`
(the predicates do not mention the deleted assignment's id, so the deletion is
not scoped to it); and (3) removes the assignment record. -/
theorem delete_effects (db : DB) (id : Nat) (asg : Assignment)
    (h : db.assignments.find? (fun x => x.aid == id) = some asg) :
    (deleteAssignment db id).2 = Except.ok () ∧
    (findCustomer (deleteAssignment db id).1.customers asg.customerId).map
        Customer.personalTrainer =
      (findCustomer db.customers asg.customerId).map
        (fun _ => (none : Option Assignment)) ∧
    (deleteAssignment db id).1.invoices =
      db.invoices.filter (fun i => !(invMatchesPT asg.customerId asg.gymId i)) ∧
    (deleteAssignment db id).1.transactions =
      db.transactions.filter
        (fun t => !(txMatchesPTorRenewal asg.customerId asg.gymId t)) ∧
    (deleteAssignment db id).1.assignments =
      db.assignments.eraseP (fun x => x.aid == id) := by
  simp only [deleteAssignment, h]
  refine ⟨trivial, ?_, trivial, trivial, trivial⟩
  rw [findCustomer_updateCustomerById]
  · cases findCustomer db.customers asg.customerId <;> rfl
  · intro x; rfl

/-- Claim C7: for an existing assignment, a successful `renewAssignment` stores
the caller-supplied `endDate` verbatim (the returned assignment's `endDate` is
the argument, not recomputed from `startDate` and `duration`), and always
inserts one new invoice and one new transaction of type
`PERSONAL_TRAINING_RENEWAL` at the head of the stores while leaving every
pre-existing invoice and transaction unchanged (`tail` equalities), so repeated
renewals accumulate invoices. -/
theorem renew_inserts_new_records (db : DB) (userId id : Nat) (r : RenewArgs)
    (old : Assignment)
    (h6 : r.duration ≠ 0) (h7 : r.endDate ≠ 0) (h8 : r.fees ≠ 0) (h9 : r.gymId ≠ 0)
    (hfind : db.assignments.find? (fun x => x.aid == id) = some old) :
    (renewAssignment db userId id r).2.map Assignment.endDate = Except.ok r.endDate ∧
    (renewAssignment db userId id r).1.invoices.tail = db.invoices ∧
    (renewAssignment db userId id r).1.invoices.length = db.invoices.length + 1 ∧
    ((renewAssignment db userId id r).1.invoices.head?.map InvoiceDoc.amount =
      some r.fees) ∧
    (renewAssignment db userId id r).1.transactions.tail = db.transactions ∧
    ((renewAssignment db userId id r).1.transactions.head?.map
        TransactionDoc.transactionType = some TxType.PERSONAL_TRAINING_RENEWAL) := by
  have hval2 : ¬(r.duration = 0 ∨ r.endDate = 0 ∨ r.fees = 0 ∨ r.gymId = 0) := by
    simp [h6, h7, h8, h9]
  simp only [renewAssignment, if_neg hval2, hfind]
  refine ⟨?_, ?_, ?_, ?_, ?_, ?_⟩ <;> trivial

/-- Claim C5: a successful `updateAssignment` (valid fields, assignment found)
returns the updated assignment whatever the invoice/transaction stores contain;
it never changes the number of invoices or transactions (so a repeated update
cannot create one); when no invoice (resp. transaction) matches customer + gym
+ pattern it leaves the store untouched and still succeeds; and when a first
(= most recent, stores are newest-first) match exists at position `k`, exactly
that document is overwritten (amount, dueDate, items, notes — resp. amount,
description, transactionDate) and every other position is unchanged. -/
theorem update_overwrites_most_recent_only
    (db : DB) (id : Nat) (a : CreateArgs) (old : Assignment)
    (h1 : a.customerId ≠ 0) (h2 : a.trainerId ≠ 0) (h3 : a.gymId ≠ 0)
    (h4 : a.duration ≠ 0) (h5 : a.fees ≠ 0)
    (hfind : db.assignments.find? (fun x => x.aid == id) = some old) :
    (updateAssignment db id a).2 =
      Except.ok { old with
        customerId := a.customerId, trainerId := a.trainerId, gymId := a.gymId,
        startDate := rd a.startDate.y a.startDate.m a.startDate.d,
        duration := a.duration,
        endDate := codeEndRd a.startDate.y a.startDate.m a.startDate.d a.duration,
        fees := a.fees } ∧
    (updateAssignment db id a).1.invoices.length = db.invoices.length ∧
    (updateAssignment db id a).1.transactions.length = db.transactions.length ∧
    (db.invoices.find? (invMatchesPT a.customerId a.gymId) = none →
      (updateAssignment db id a).1.invoices = db.invoices) ∧
    (db.transactions.find? (txMatchesPT a.customerId a.gymId) = none →
      (updateAssignment db id a).1.transactions = db.transactions) ∧
    (∀ k, findIdxP (invMatchesPT a.customerId a.gymId) db.invoices = some k →
      (∀ j, j ≠ k → (updateAssignment db id a).1.invoices[j]? = db.invoices[j]?) ∧
      (updateAssignment db id a).1.invoices[k]? = (db.invoices[k]?).map
        (fun inv => { inv with
          amount := a.fees,
          dueDate := codeEndRd a.startDate.y a.startDate.m a.startDate.d a.duration,
          items := [{ description := mkCreateDesc a.duration, quantity := 1,
                      unitPrice := a.fees, amount := a.fees }],
          notes := mkCreateNotes (rd a.startDate.y a.startDate.m a.startDate.d) })) ∧
    (∀ k, findIdxP (txMatchesPT a.customerId a.gymId) db.transactions = some k →
      (∀ j, j ≠ k →
        (updateAssignment db id a).1.transactions[j]? = db.transactions[j]?) ∧
      (updateAssignment db id a).1.transactions[k]? = (db.transactions[k]?).map
        (fun t => { t with
          amount := a.fees, description := mkTxDesc a.duration,
          transactionDate := db.todayRd })) := by
  have hval : ¬(a.customerId = 0 ∨ a.trainerId = 0 ∨ a.gymId = 0 ∨ a.duration = 0 ∨
      a.fees = 0) := by
    simp [h1, h2, h3, h4, h5]
  simp only [updateAssignment, if_neg hval, hfind]
  cases hinv : db.invoices.find? (invMatchesPT a.customerId a.gymId) with
  | none =>
    cases htx : db.transactions.find? (txMatchesPT a.customerId a.gymId) with
    | none =>
      refine ⟨trivial, rfl, rfl, fun _ => rfl, fun _ => rfl, ?_, ?_⟩
      · intro k hk
        rw [findIdxP_eq_none_of_find?_none _ _ hinv] at hk
        exact absurd hk (by simp)
      · intro k hk
        rw [findIdxP_eq_none_of_find?_none _ _ htx] at hk
        exact absurd hk (by simp)
    | some t0 =>
      refine ⟨trivial, rfl, replaceFirst_length _ _ _, fun _ => rfl,
        fun hn => absurd hn (by simp), ?_, ?_⟩
      · intro k hk
        rw [findIdxP_eq_none_of_find?_none _ _ hinv] at hk
        exact absurd hk (by simp)
      · intro k hk
        exact ⟨fun j hj => replaceFirst_getElem?_ne _ _ _ _ _ hk hj,
          replaceFirst_getElem?_eq _ _ _ _ hk⟩
  | some inv0 =>
    cases htx : db.transactions.find? (txMatchesPT a.customerId a.gymId) with
    | none =>
      refine ⟨trivial, replaceFirst_length _ _ _, rfl, fun hn => absurd hn (by simp),
        fun _ => rfl, ?_, ?_⟩
      · intro k hk
        exact ⟨fun j hj => replaceFirst_getElem?_ne _ _ _ _ _ hk hj,
          replaceFirst_getElem?_eq _ _ _ _ hk⟩
      · intro k hk
        rw [findIdxP_eq_none_of_find?_none _ _ htx] at hk
        exact absurd hk (by simp)
    | some t0 =>
      refine ⟨trivial, replaceFirst_length _ _ _, replaceFirst_length _ _ _,
        fun hn => absurd hn (by simp), fun hn => absurd hn (by simp), ?_, ?_⟩
      · intro k hk
        exact ⟨fun j hj => replaceFirst_getElem?_ne _ _ _ _ _ hk hj,
          replaceFirst_getElem?_eq _ _ _ _ hk⟩
      · intro k hk
        exact ⟨fun j hj => replaceFirst_getElem?_ne _ _ _ _ _ hk hj,
          replaceFirst_getElem?_eq _ _ _ _ hk⟩

theorem isPrefixOf_append_self : ∀ l r : List Char, l.isPrefixOf (l ++ r) = true := by
  intro l r
  induction l with
  | nil => cases r <;> rfl
  | cons c cs ih => simpa [List.isPrefixOf] using ih

theorem containsSub_append_self : ∀ pat r : List Char,
    containsSub pat (pat ++ r) = true := by
  intro pat r
  cases pat with
  | nil =>
    cases r with
    | nil => rfl
    | cons c rs => simp [containsSub, List.isPrefixOf]
  | cons p ps =>
    rw [List.cons_append, containsSub]
    simp [isPrefixOf_append_self]

/-- The line item written by `createAssignment` / `updateAssignment` matches the
`/Personal Training/` pattern. -/
theorem containsSub_mkCreateDesc (dur : Nat) :
    containsSub ptPat (mkCreateDesc dur) = true := by
  have h : mkCreateDesc dur =
      ptPat ++ (" with ".data ++ natToDigits dur ++ " month(s) duration".data) := by
    rw [mkCreateDesc,
      show "Personal Training with ".data = ptPat ++ " with ".data by decide]
    simp
  rw [h]
  exact containsSub_append_self _ _

/-- Claim C8: the expiring-assignments query returns exactly the assignments
whose `endDate` lies in the closed day window `[today, today + 7]` (today
00:00:00 through today+7 23:59:59.999), restricted to the requested gym exactly
when the `gymId` query parameter is present. In particular an assignment with
`endDate` = today is included and one with `endDate` = today + 8 is excluded. -/
theorem expiring_window_characterization (db : DB) (g : Option Nat) (u : Nat)
    (a : Assignment) :
    a ∈ getExpiringAssignments db g u ↔
      a ∈ db.assignments ∧ db.todayRd ≤ a.endDate ∧ a.endDate ≤ db.todayRd + 7 ∧
        (∀ gid, g = some gid → a.gymId = gid) := by
  unfold getExpiringAssignments
  rw [List.mem_filter]
  constructor
  · rintro ⟨hmem, hb⟩
    rw [Bool.and_eq_true, Bool.and_eq_true] at hb
    obtain ⟨⟨hp, hq⟩, hm⟩ := hb
    refine ⟨hmem, by simpa using hp, by simpa using hq, ?_⟩
    intro gid hg
    subst hg
    simpa using hm
  · rintro ⟨hmem, hp, hq, hg⟩
    refine ⟨hmem, ?_⟩
    rw [Bool.and_eq_true, Bool.and_eq_true]
    refine ⟨⟨by simpa using hp, by simpa using hq⟩, ?_⟩
    cases g with
    | none => rfl
    | some gid => simpa using hg gid rfl

/-- Claim C10: when the `gymId` query parameter is absent, `getAssignments`
returns every stored assignment and `getExpiringAssignments` filters on the
date window alone — whatever the authenticated caller's own gym `userGymId` is,
neither handler scopes its query by it, so the results span all gyms. -/
theorem queries_not_scoped_to_caller_gym (db : DB) (userGymId : Nat) :
    getAssignments db none userGymId = db.assignments ∧
    getExpiringAssignments db none userGymId =
      db.assignments.filter (fun a =>
        decide (db.todayRd ≤ a.endDate) && decide (a.endDate ≤ db.todayRd + 7)) := by
  constructor
  · rfl
  · unfold getExpiringAssignments
    refine List.filter_congr ?_
    intro x _
    show ((decide (db.todayRd ≤ x.endDate) && decide (x.endDate ≤ db.todayRd + 7)) &&
        true) =
      (decide (db.todayRd ≤ x.endDate) && decide (x.endDate ≤ db.todayRd + 7))
    exact Bool.and_true _

/-- Store and operation sequence refuting claim C4: a customer acquires two
personal-training assignments in the same gym, then the first is deleted. -/
def cDB : DB :=
  { customers := [{ cid := 1, totalSpent := 0, personalTrainer := none }],
    assignments := [], invoices := [], transactions := [], nextId := 10,
    todayRd := 738890 }

def cStep1 : DB × Except ApiErr Assignment :=
  createAssignment cDB 5
    { customerId := 1, trainerId := 2, gymId := 3,
      startDate := { y := 2024, m := 1, d := 10 }, duration := 1, fees := 100 }

def cStep2 : DB × Except ApiErr Assignment :=
  createAssignment cStep1.1 5
    { customerId := 1, trainerId := 4, gymId := 3,
      startDate := { y := 2024, m := 1, d := 12 }, duration := 2, fees := 200 }

def cStep3 : DB × Except ApiErr Unit := deleteAssignment cStep2.1 10

/-- Claim C4 (counterexample): after the successful sequence create (fees 100,
assignment id 10), create (fees 200, id 13), delete (id 10) — all for customer
1 in gym 3 — the second assignment is still stored and active (its endDate is
ahead of today), yet no invoice and no transaction matching customer 1 + gym 3
+ the Personal-Training pattern remains: `deleteAssignment` wiped them all, so
"for every active assignment there exists exactly one current invoice and one
current transaction reflecting its fee" fails after this successful sequence. -/
theorem invariant_violated_after_delete_counterexample :
    cStep1.2.toOption.isSome = true ∧
    cStep2.2.toOption.isSome = true ∧
    cStep3.2.toOption = some () ∧
    (∃ a2 ∈ cStep3.1.assignments, a2.customerId = 1 ∧ a2.gymId = 3 ∧ a2.fees = 200 ∧
      cStep3.1.todayRd ≤ a2.endDate) ∧
    cStep3.1.invoices.filter (invMatchesPT 1 3) = [] ∧
    cStep3.1.transactions.filter (txMatchesPTorRenewal 1 3) = [] := by
  decide

/-- Claim C4 (amended): the intended invariant is established by a single
successful `createAssignment` on a customer and gym with no pre-existing
Personal-Training billing records: afterwards exactly one matching invoice and
exactly one matching transaction exist, each with amount = fees, and the
customer's `totalSpent` has grown by exactly the fees (= the sum of the fees of
all create/renew events applied so far). The invariant is not preserved by
arbitrary operation sequences: deleting one of two assignments of the same
customer and gym also removes the other's invoices and transactions (see the
counterexample). -/
theorem create_establishes_billing_invariant
    (db : DB) (userId : Nat) (a : CreateArgs) (c : Customer)
    (h1 : a.customerId ≠ 0) (h2 : a.trainerId ≠ 0) (h3 : a.gymId ≠ 0)
    (h4 : a.duration ≠ 0) (h5 : a.fees ≠ 0)
    (hcust : findCustomer db.customers a.customerId = some c)
    (hinv : db.invoices.filter (invMatchesPT a.customerId a.gymId) = [])
    (htx : db.transactions.filter (txMatchesPTorRenewal a.customerId a.gymId) = []) :
    ((createAssignment db userId a).1.invoices.filter
        (invMatchesPT a.customerId a.gymId)).map InvoiceDoc.amount = [a.fees] ∧
    ((createAssignment db userId a).1.transactions.filter
        (txMatchesPTorRenewal a.customerId a.gymId)).map TransactionDoc.amount =
      [a.fees] ∧
    (findCustomer (createAssignment db userId a).1.customers a.customerId).map
        Customer.totalSpent = some (c.totalSpent + a.fees) := by
  have hval : ¬(a.customerId = 0 ∨ a.trainerId = 0 ∨ a.gymId = 0 ∨ a.duration = 0 ∨
      a.fees = 0) := by
    simp [h1, h2, h3, h4, h5]
  simp only [createAssignment, if_neg hval]
  refine ⟨?_, ?_, ?_⟩
  · rw [List.filter_cons_of_pos (by simp [invMatchesPT, containsSub_mkCreateDesc]), hinv]
    rfl
  · rw [List.filter_cons_of_pos (by simp [txMatchesPTorRenewal]), htx]
    rfl
  · rw [findCustomer_updateCustomerById, findCustomer_updateCustomerById, hcust]
    · rfl
    · intro x; rfl
    · intro x; rfl

/-- Witness assignment (id 20) for the update/delete/renew witnesses. -/
def wAsg : Assignment :=
  { aid := 20, customerId := 1, trainerId := 2, gymId := 3, startDate := 738895,
    duration := 1, endDate := 738925, fees := 100 }

/-- Witness store holding assignment 20 and a second assignment 21 of the same
customer; the customer's `personalTrainer` snapshot references assignment 21,
not 20. -/
def wAsg21 : Assignment := { wAsg with aid := 21, trainerId := 4 }

def wDB2 : DB :=
  { customers := [{ cid := 1, totalSpent := 100, personalTrainer := some wAsg21 }],
    assignments := [wAsg, wAsg21],
    invoices := [], transactions := [], nextId := 30, todayRd := 738890 }

/-- Witness for `delete_missing_id_no_writes`: id 99 does not exist in `wDB`. -/
theorem delete_missing_id_no_writes_witness :
    deleteAssignment wDB 99 =
      (wDB, Except.error (ApiErr.notFound "Assignment not found.".data)) :=
  delete_missing_id_no_writes wDB 99 (by decide)

/-- Witness for `delete_effects`: deleting assignment 20 clears customer 1's
`personalTrainer` even though it referenced assignment 21. -/
theorem delete_effects_witness :
    (findCustomer (deleteAssignment wDB2 20).1.customers wAsg.customerId).map
        Customer.personalTrainer =
      (findCustomer wDB2.customers wAsg.customerId).map
        (fun _ => (none : Option Assignment)) :=
  (delete_effects wDB2 20 wAsg (by decide)).2.1

/-- Witness for `renew_inserts_new_records` on assignment 20 of `wDB2`. -/
theorem renew_inserts_new_records_witness :
    (renewAssignment wDB2 7 20 wRenew).2.map Assignment.endDate =
      Except.ok wRenew.endDate ∧
    (renewAssignment wDB2 7 20 wRenew).1.invoices.tail = wDB2.invoices :=
  ⟨(renew_inserts_new_records wDB2 7 20 wRenew wAsg (by decide) (by decide)
      (by decide) (by decide) (by decide)).1,
    (renew_inserts_new_records wDB2 7 20 wRenew wAsg (by decide) (by decide)
      (by decide) (by decide) (by decide)).2.1⟩

/-- Witness for `update_overwrites_most_recent_only` on assignment 20 of `wDB2`. -/
theorem update_overwrites_most_recent_only_witness :
    (updateAssignment wDB2 20 wCreate).1.invoices.length = wDB2.invoices.length :=
  (update_overwrites_most_recent_only wDB2 20 wCreate wAsg (by decide) (by decide)
    (by decide) (by decide) (by decide) (by decide)).2.1

/-- Witness for `create_establishes_billing_invariant` on the fresh store `wDB`. -/
theorem create_establishes_billing_invariant_witness :
    ((createAssignment wDB 5 wCreate).1.invoices.filter
        (invMatchesPT wCreate.customerId wCreate.gymId)).map InvoiceDoc.amount =
      [wCreate.fees] ∧
    (findCustomer (createAssignment wDB 5 wCreate).1.customers
        wCreate.customerId).map Customer.totalSpent = some ((0 : Int) + 100) :=
  ⟨(create_establishes_billing_invariant wDB 5 wCreate
      { cid := 1, totalSpent := 0, personalTrainer := none }
      (by decide) (by decide) (by decide) (by decide) (by decide)
      (by decide) (by decide) (by decide)).1,
    (create_establishes_billing_invariant wDB 5 wCreate
      { cid := 1, totalSpent := 0, personalTrainer := none }
      (by decide) (by decide) (by decide) (by decide) (by decide)
      (by decide) (by decide) (by decide)).2.2⟩
